import Mathlib

/-!
Shallow embedding of `src/grafica.py`, a FastAPI service that accepts a CSV
upload of food-consumption rows (date, category, quantity in grams), validates
it, aggregates it, renders three charts to fixed paths under
`./generated_graphs`, computes two 30-step daily forecasts, and serves the
generated files back by name.

Modelling conventions:
* Calendar dates are day numbers (`Nat`, days since the Unix epoch); one
  calendar day apart means the day numbers differ by 1.
* Quantities are integers (`Int`); the only operations used are sums.
* `pd.read_csv` is external: an upload carries its parse outcome directly.
* `pd.to_datetime` is external: a raw row carries the parse outcome of its
  date string as `Option Nat`.
* `DataFrame.asfreq('D', fill_value=0)` is embedded after pandas'
  implementation: a `date_range` from the index minimum to the index maximum
  followed by `reindex` with fill value 0; `reindex` raises a `ValueError`
  when the index has duplicate labels.
* The statsmodels calls (`SARIMAX(...).fit().get_forecast(steps=30)` and
  `ExponentialSmoothing(...).fit().forecast(steps=30)`) are external; whether
  each fit succeeds and which values it predicts are environment parameters,
  while the forecast index follows the library's contract for a daily series:
  30 consecutive days starting the day after the last observed date.
* Chart rendering is external and deterministic; a written PNG is modelled by
  the data that was drawn into it, and byte identity by equality of that data.
* The filesystem is an association list from paths to file contents; a write
  prepends (shadowing any older entry), a read takes the first match.
-/

deriving instance DecidableEq for Except

namespace Grafica

/-- One row of the uploaded CSV after `pd.read_csv`, before date conversion.
`fecha` is the outcome of parsing the date cell (`none` if unparseable by
`pd.to_datetime`), `tipo` the category label, `cantidad` the quantity in
grams. -/
structure RawRow where
  fecha : Option Nat
  tipo : String
  cantidad : Int
deriving DecidableEq

/-- Python's `str.endswith`, over the string's characters. -/
def strEndsWith (s suff : String) : Bool :=
  suff.data.isSuffixOf s.data

/-- The outcome of `pd.read_csv`: column names plus rows. -/
structure RawTable where
  cols : List String
  rows : List RawRow
deriving DecidableEq

/-- An uploaded file: its name and the outcome of parsing its content with
`pd.read_csv` (`Except.error` models the parser throwing). -/
structure Upload where
  filename : String
  parse : Except String RawTable

/-- A row after successful date conversion. -/
structure Row where
  fecha : Nat
  tipo : String
  cantidad : Int
deriving DecidableEq

/-- `required_columns = {"Fecha", "Tipo de Alimento", "Cantidad Consumida (gr)"}`
(src/grafica.py line 31). -/
def requiredColumns : List String :=
  ["Fecha", "Tipo de Alimento", "Cantidad Consumida (gr)"]

/-- `required_columns.issubset(data.columns)` (line 32). -/
def hasRequiredColumns (cols : List String) : Bool :=
  requiredColumns.all fun c => cols.contains c

/-- The required columns that are absent from the upload. -/
def missingSet (cols : List String) : List String :=
  requiredColumns.filter fun c => !(cols.contains c)

/-- `pd.to_datetime(data['Fecha'])` (line 36): converts every date cell,
raising (hence failing the whole request) if any cell is unparseable. -/
def parseDates : List RawRow → Option (List Row)
  | [] => some []
  | r :: rs =>
    match r.fecha with
    | none => none
    | some d => (parseDates rs).map fun l => ⟨d, r.tipo, r.cantidad⟩ :: l

/-- Add `v` to the bucket of key `k` in an association list, appending a new
bucket if the key is absent. -/
def addTotal (acc : List (String × Int)) (k : String) (v : Int) :
    List (String × Int) :=
  match acc with
  | [] => [(k, v)]
  | (k', v') :: rest =>
    if k' = k then (k', v' + v) :: rest else (k', v') :: addTotal rest k v

/-- `data.groupby('Tipo de Alimento')['Cantidad Consumida (gr)'].sum()`
(line 40): quantity summed per category label. -/
def groupTotals (rows : List Row) : List (String × Int) :=
  rows.foldl (fun acc r => addTotal acc r.tipo r.cantidad) []

/-- `data.set_index('Fecha')` followed by selecting the quantity column:
the date-indexed series view of the rows. -/
def toSeries (rows : List Row) : List (Nat × Int) :=
  rows.map fun r => (r.fecha, r.cantidad)

/-- The dates (index) of a date-indexed series. -/
def seriesDates (s : List (Nat × Int)) : List Nat :=
  s.map Prod.fst

/-- `index.min()` (0 on an empty list; only used on nonempty input). -/
def listMin : List Nat → Nat
  | [] => 0
  | x :: xs => xs.foldl Nat.min x

/-- `index.max()` (0 on an empty list; only used on nonempty input). -/
def listMax : List Nat → Nat
  | [] => 0
  | x :: xs => xs.foldl Nat.max x

/-- `pd.date_range(lo, hi, freq='D')`: every calendar day from `lo` to `hi`
inclusive (empty when `hi < lo`). -/
def dayRange (lo hi : Nat) : List Nat :=
  (List.range (hi + 1 - lo)).map fun i => lo + i

/-- Value of a series at a date: the first entry with that date, 0 if none
(the `fill_value=0` of the reindex). -/
def lookup0 : List (Nat × Int) → Nat → Int
  | [], _ => 0
  | p :: rest, d => if p.1 = d then p.2 else lookup0 rest d

/-- The `ValueError` message pandas raises when reindexing a duplicated axis. -/
def reindexMsg : String := "cannot reindex on an axis with duplicate labels"

/-- `data.asfreq('D', fill_value=0)` (line 49), after pandas: an empty frame
stays empty; otherwise build the daily `date_range` from the index minimum to
the index maximum and reindex onto it, filling absent days with 0; reindexing
raises a `ValueError` when the index has duplicate labels. -/
def asfreqD (s : List (Nat × Int))
    : Except String (List (Nat × Int)) :=
  if s = [] then .ok []
  else if (seriesDates s).Nodup then
    .ok ((dayRange (listMin (seriesDates s)) (listMax (seriesDates s))).map
      fun d => (d, lookup0 s d))
  else .error reindexMsg

/-- A 30-step (in general `steps`-step) forecast of a daily series whose last
observed date is `last`, with predicted values given by `f`: the library
contract for `get_forecast(steps)` / `forecast(steps)` on a daily index is
one entry per consecutive calendar day starting the day after `last`. -/
def forecastSeries (f : Nat → Int) (last steps : Nat) : List (Nat × Int) :=
  (List.range steps).map fun i => (last + 1 + i, f (last + 1 + i))

/-- What a generated PNG shows, standing in for its bytes: rendering is
deterministic, so byte identity is equality of the rendered data. -/
inductive FileContent where
  | pie (totals : List (String × Int))
  | line (series : List (Nat × Int))
  | pred (series sarima holt : List (Nat × Int))
deriving DecidableEq

/-- The on-disk output directory: paths mapped to file contents, newest first. -/
abbrev FS := List (String × FileContent)

/-- `plt.savefig(path)`: write (overwrite) the file at `path`. -/
def write (fs : FS) (path : String) (c : FileContent) : FS :=
  (path, c) :: fs

/-- Read the file at a path, if present. -/
def readFS : FS → String → Option FileContent
  | [], _ => none
  | (q, c) :: rest, p => if q = p then some c else readFS rest p

/-- `GRAPH_PATH = "./generated_graphs"` (line 14). -/
def GRAPH_PATH : String := "./generated_graphs"

/-- `os.path.join(dir, name)` for a relative `name`. -/
def joinPath (dir name : String) : String := dir ++ "/" ++ name

/-- `os.path.join(GRAPH_PATH, "grafica_pastel.png")` (line 41). -/
def piePath : String := joinPath GRAPH_PATH "grafica_pastel.png"

/-- `os.path.join(GRAPH_PATH, "grafica_linea.png")` (line 51). -/
def linePath : String := joinPath GRAPH_PATH "grafica_linea.png"

/-- `os.path.join(GRAPH_PATH, "grafica_predicciones.png")` (line 70). -/
def predPath : String := joinPath GRAPH_PATH "grafica_predicciones.png"

/-- How a request can fail: the three explicit `HTTPException(400)`s of
`generate_graphs`, the `HTTPException(404)` of `download_graph`, and the
uncaught library exceptions that surface as internal server errors. -/
inductive ApiError where
  | badExtension
  | readError (msg : String)
  | missingColumns (cols : List String)
  | notFound
  | dateParseError
  | reindexError
  | sarimaError
  | holtError
deriving DecidableEq

/-- The HTTP status each failure surfaces with: 400 for the explicit client
errors, 404 for a missing download, 500 for uncaught exceptions. -/
def ApiError.statusCode : ApiError → Nat
  | .badExtension => 400
  | .readError _ => 400
  | .missingColumns _ => 400
  | .notFound => 404
  | .dateParseError => 500
  | .reindexError => 500
  | .sarimaError => 500
  | .holtError => 500

/-- The JSON structure returned by a successful `generate_graphs`
(lines 81-85). -/
structure GenResult where
  pie_chart : String
  line_chart : String
  prediction_chart : String
deriving DecidableEq

/-- Behaviour of the external statsmodels fits during one request: whether
each fit converges and the values each fitted model predicts. -/
structure Env where
  sarimaOk : Bool
  holtOk : Bool
  sarimaVal : Nat → Int
  holtVal : Nat → Int

/-- `POST /generate-graphs/` (`generate_graphs`, lines 19-85): extension
check, CSV parse, required-columns check, date conversion, pie chart
(category totals) written, daily reindex, line chart written, SARIMAX then
Holt-Winters 30-step forecasts, prediction chart written, paths returned.
Returns the response together with the resulting output directory. -/
def generate (env : Env) (u : Upload) (fs : FS) :
    Except ApiError GenResult × FS :=
  if strEndsWith u.filename ".csv" then
    match u.parse with
    | .error e => (.error (.readError e), fs)
    | .ok t =>
      if hasRequiredColumns t.cols then
        match parseDates t.rows with
        | none => (.error .dateParseError, fs)
        | some rows =>
          let totals := groupTotals rows
          let fs1 := write fs piePath (.pie totals)
          match asfreqD (toSeries rows) with
          | .error _ => (.error .reindexError, fs1)
          | .ok daily =>
            let fs2 := write fs1 linePath (.line daily)
            if env.sarimaOk then
              let sarimaF :=
                forecastSeries env.sarimaVal (listMax (seriesDates daily)) 30
              if env.holtOk then
                let holtF :=
                  forecastSeries env.holtVal (listMax (seriesDates daily)) 30
                let fs3 := write fs2 predPath (.pred daily sarimaF holtF)
                (.ok ⟨piePath, linePath, predPath⟩, fs3)
              else (.error .holtError, fs2)
            else (.error .sarimaError, fs2)
      else (.error (.missingColumns requiredColumns), fs)
  else (.error .badExtension, fs)

/-- `GET /download-graph/` (`download_graph`, lines 89-93): join the caller's
filename onto the output directory; 404 if the path does not exist, otherwise
return the file. -/
def download (fs : FS) (filename : String) : Except ApiError FileContent :=
  match readFS fs (joinPath GRAPH_PATH filename) with
  | none => .error .notFound
  | some c => .ok c

/-- Total quantity of an association list (category totals or a series). -/
def sumVals {α : Type} (l : List (α × Int)) : Int :=
  (l.map Prod.snd).sum

/-! ### Concrete inputs used in witnesses and counterexamples -/

/-- An environment where both model fits converge (predicting 0 throughout). -/
def envOK : Env := ⟨true, true, fun _ => 0, fun _ => 0⟩

/-- An environment where the SARIMAX fit raises. -/
def envSarimaFails : Env := ⟨false, true, fun _ => 0, fun _ => 0⟩

/-- A well-formed one-row table. -/
def tblOK : RawTable := ⟨requiredColumns, [⟨some 3, "fruta", 2⟩]⟩

/-- A well-formed one-row upload. -/
def upOK : Upload := ⟨"datos.csv", .ok tblOK⟩

/-- A validated upload with two rows on the same date. -/
def upDup : Upload :=
  ⟨"datos.csv", .ok ⟨requiredColumns, [⟨some 3, "a", 1⟩, ⟨some 3, "b", 2⟩]⟩⟩

/-- A validated upload whose distinct dates are not in ascending order. -/
def upUnsorted : Upload :=
  ⟨"datos.csv", .ok ⟨requiredColumns, [⟨some 5, "a", 1⟩, ⟨some 3, "b", 2⟩]⟩⟩

/-- An upload whose parsed table lacks the quantity column. -/
def upMissingQty : Upload :=
  ⟨"datos.csv", .ok ⟨["Fecha", "Tipo de Alimento"], []⟩⟩

/-- An upload with a date cell `pd.to_datetime` cannot parse. -/
def upBadDate : Upload :=
  ⟨"datos.csv", .ok ⟨requiredColumns, [⟨some 3, "a", 1⟩, ⟨none, "b", 2⟩]⟩⟩

/-- The worked example of the specification: rows
(2024-01-01, "fruit", 100) and (2024-01-03, "fruit", 50); 2024-01-01 is day
19723 since the epoch. -/
def rowsExample : List Row := [⟨19723, "fruit", 100⟩, ⟨19725, "fruit", 50⟩]

/-! ### Lemmas about the series combinators -/

theorem seriesDates_cons (p : Nat × Int) (s : List (Nat × Int)) :
    seriesDates (p :: s) = p.1 :: seriesDates s := rfl

theorem mem_dayRange {lo hi d : Nat} :
    d ∈ dayRange lo hi ↔ lo ≤ d ∧ d ≤ hi := by
  simp only [dayRange, List.mem_map, List.mem_range]
  constructor
  · rintro ⟨i, h1, rfl⟩
    omega
  · rintro ⟨h1, h2⟩
    exact ⟨d - lo, by omega, by omega⟩

theorem dayRange_nodup (lo hi : Nat) : (dayRange lo hi).Nodup :=
  (List.nodup_range _).map (fun a b h => by omega)

theorem foldl_min_le_init (l : List Nat) (a : Nat) : l.foldl Nat.min a ≤ a := by
  induction l generalizing a with
  | nil => exact Nat.le_refl a
  | cons b l ih => exact Nat.le_trans (ih (Nat.min a b)) (Nat.min_le_left a b)

theorem foldl_min_le_mem {l : List Nat} {x : Nat} (hx : x ∈ l) (a : Nat) :
    l.foldl Nat.min a ≤ x := by
  induction l generalizing a with
  | nil => cases hx
  | cons b l ih =>
    rcases List.mem_cons.1 hx with rfl | hx2
    · exact Nat.le_trans (foldl_min_le_init l _) (Nat.min_le_right a x)
    · exact ih hx2 _

theorem foldl_min_choice (l : List Nat) (a : Nat) :
    l.foldl Nat.min a = a ∨ l.foldl Nat.min a ∈ l := by
  induction l generalizing a with
  | nil => exact Or.inl rfl
  | cons b l ih =>
    rw [List.foldl_cons]
    rcases ih (Nat.min a b) with h | h
    · rw [h]
      rcases Nat.le_total a b with hab | hab
      · exact Or.inl (Nat.min_eq_left hab)
      · right
        have hmin : Nat.min a b = b := Nat.min_eq_right hab
        rw [hmin]
        exact List.mem_cons_self b l
    · exact Or.inr (List.mem_cons_of_mem b h)

theorem listMin_le {l : List Nat} {x : Nat} (hx : x ∈ l) : listMin l ≤ x := by
  match l, hx with
  | b :: t, hx =>
    rcases List.mem_cons.1 hx with rfl | hx2
    · exact foldl_min_le_init t x
    · exact foldl_min_le_mem hx2 b

theorem listMin_mem {l : List Nat} (h : l ≠ []) : listMin l ∈ l := by
  match l, h with
  | b :: t, _ =>
    rcases foldl_min_choice t b with h2 | h2
    · rw [listMin, h2]
      exact List.mem_cons_self b t
    · exact List.mem_cons_of_mem b h2

theorem foldl_max_init_le (l : List Nat) (a : Nat) : a ≤ l.foldl Nat.max a := by
  induction l generalizing a with
  | nil => exact Nat.le_refl a
  | cons b l ih => exact Nat.le_trans (Nat.le_max_left a b) (ih (Nat.max a b))

theorem foldl_max_mem_le {l : List Nat} {x : Nat} (hx : x ∈ l) (a : Nat) :
    x ≤ l.foldl Nat.max a := by
  induction l generalizing a with
  | nil => cases hx
  | cons b l ih =>
    rcases List.mem_cons.1 hx with rfl | hx2
    · exact Nat.le_trans (Nat.le_max_right a x) (foldl_max_init_le l _)
    · exact ih hx2 _

theorem foldl_max_choice (l : List Nat) (a : Nat) :
    l.foldl Nat.max a = a ∨ l.foldl Nat.max a ∈ l := by
  induction l generalizing a with
  | nil => exact Or.inl rfl
  | cons b l ih =>
    rw [List.foldl_cons]
    rcases ih (Nat.max a b) with h | h
    · rw [h]
      rcases Nat.le_total a b with hab | hab
      · right
        have hmax : Nat.max a b = b := Nat.max_eq_right hab
        rw [hmax]
        exact List.mem_cons_self b l
      · exact Or.inl (Nat.max_eq_left hab)
    · exact Or.inr (List.mem_cons_of_mem b h)

theorem le_listMax {l : List Nat} {x : Nat} (hx : x ∈ l) : x ≤ listMax l := by
  match l, hx with
  | b :: t, hx =>
    rcases List.mem_cons.1 hx with rfl | hx2
    · exact foldl_max_init_le t x
    · exact foldl_max_mem_le hx2 b

theorem listMax_mem {l : List Nat} (h : l ≠ []) : listMax l ∈ l := by
  match l, h with
  | b :: t, _ =>
    rcases foldl_max_choice t b with h2 | h2
    · rw [listMax, h2]
      exact List.mem_cons_self b t
    · exact List.mem_cons_of_mem b h2

theorem listMin_le_listMax {l : List Nat} (h : l ≠ []) :
    listMin l ≤ listMax l :=
  listMin_le (listMax_mem h)

theorem lookup0_eq_zero_of_not_mem {s : List (Nat × Int)} {d : Nat}
    (h : d ∉ seriesDates s) : lookup0 s d = 0 := by
  induction s with
  | nil => rfl
  | cons p rest ih =>
    rw [seriesDates_cons, List.mem_cons] at h
    push_neg at h
    rw [lookup0, if_neg (fun he => h.1 he.symm)]
    exact ih h.2

theorem lookup0_map_self {dr : List Nat} (f : Nat → Int) {d : Nat}
    (hd : d ∈ dr) : lookup0 (dr.map fun x => (x, f x)) d = f d := by
  induction dr with
  | nil => cases hd
  | cons x dr ih =>
    rw [List.map_cons, lookup0]
    by_cases hx : x = d
    · rw [if_pos hx, hx]
    · rw [if_neg hx]
      refine ih ?_
      rcases List.mem_cons.1 hd with rfl | h2
      · exact absurd rfl hx
      · exact h2

theorem lookup0_mem_of_nodup {s : List (Nat × Int)}
    (hnd : (seriesDates s).Nodup) {p : Nat × Int} (hp : p ∈ s) :
    lookup0 s p.1 = p.2 := by
  induction s with
  | nil => cases hp
  | cons q rest ih =>
    rw [seriesDates_cons, List.nodup_cons] at hnd
    rcases List.mem_cons.1 hp with rfl | hp2
    · rw [lookup0, if_pos rfl]
    · have hq : q.1 ≠ p.1 := by
        intro he
        exact hnd.1 (he ▸ List.mem_map_of_mem Prod.fst hp2)
      rw [lookup0, if_neg hq]
      exact ih hnd.2 hp2

theorem seriesDates_map_pair (dr : List Nat) (f : Nat → Int) :
    seriesDates (dr.map fun d => (d, f d)) = dr := by
  induction dr with
  | nil => rfl
  | cons x dr ih =>
    rw [List.map_cons, seriesDates_cons, ih]

theorem asfreqD_eq_ok (s : List (Nat × Int)) (hne : s ≠ [])
    (hnd : (seriesDates s).Nodup) :
    asfreqD s =
      .ok ((dayRange (listMin (seriesDates s)) (listMax (seriesDates s))).map
        fun d => (d, lookup0 s d)) := by
  rw [asfreqD, if_neg hne, if_pos hnd]

theorem sumVals_nil {α : Type} : sumVals ([] : List (α × Int)) = 0 := rfl

theorem sumVals_cons {α : Type} (p : α × Int) (l : List (α × Int)) :
    sumVals (p :: l) = p.2 + sumVals l := by
  simp [sumVals]

theorem addTotal_sumVals (acc : List (String × Int)) (k : String) (v : Int) :
    sumVals (addTotal acc k v) = sumVals acc + v := by
  induction acc with
  | nil => simp [addTotal, sumVals]
  | cons p rest ih =>
    obtain ⟨k2, v2⟩ := p
    by_cases hk : k2 = k
    · rw [addTotal, if_pos hk, sumVals_cons, sumVals_cons]
      ring
    · rw [addTotal, if_neg hk, sumVals_cons, sumVals_cons, ih]
      ring

theorem foldl_addTotal_sumVals (rows : List Row) (acc : List (String × Int)) :
    sumVals (rows.foldl (fun a r => addTotal a r.tipo r.cantidad) acc) =
      sumVals acc + (rows.map fun r => r.cantidad).sum := by
  induction rows generalizing acc with
  | nil => simp
  | cons r rows ih =>
    rw [List.foldl_cons, ih, addTotal_sumVals, List.map_cons, List.sum_cons]
    ring

theorem groupTotals_sumVals (rows : List Row) :
    sumVals (groupTotals rows) = (rows.map fun r => r.cantidad).sum := by
  rw [groupTotals, foldl_addTotal_sumVals, sumVals_nil, zero_add]

theorem sum_map_update (dr : List Nat) (hdr : dr.Nodup) (a : Nat)
    (ha : a ∈ dr) (f g : Nat → Int) (c : Int) (hfa : f a = g a + c)
    (hfg : ∀ d ∈ dr, d ≠ a → f d = g d) :
    (dr.map f).sum = (dr.map g).sum + c := by
  induction dr with
  | nil => cases ha
  | cons x dr ih =>
    rw [List.nodup_cons] at hdr
    rw [List.map_cons, List.map_cons, List.sum_cons, List.sum_cons]
    rcases List.mem_cons.1 ha with rfl | ha2
    · have hmap : dr.map f = dr.map g :=
        List.map_congr_left fun d hd =>
          hfg d (List.mem_cons_of_mem _ hd) (fun he => hdr.1 (he ▸ hd))
      rw [hfa, hmap]
      ring
    · have hx : x ≠ a := fun he => hdr.1 (he ▸ ha2)
      rw [hfg x (List.mem_cons_self x dr) hx,
        ih hdr.2 ha2 fun d hd hda => hfg d (List.mem_cons_of_mem _ hd) hda]
      ring

theorem sum_lookup0_nil (dr : List Nat) :
    (dr.map (lookup0 [])).sum = 0 := by
  induction dr with
  | nil => rfl
  | cons x dr ih => simp [lookup0, ih]

theorem sum_lookup0 (s : List (Nat × Int)) (dr : List Nat) (hdr : dr.Nodup)
    (hnd : (seriesDates s).Nodup) (hsub : ∀ p ∈ s, p.1 ∈ dr) :
    (dr.map (lookup0 s)).sum = sumVals s := by
  induction s with
  | nil => rw [sum_lookup0_nil, sumVals_nil]
  | cons p rest ih =>
    rw [seriesDates_cons, List.nodup_cons] at hnd
    have h0 : lookup0 rest p.1 = 0 := lookup0_eq_zero_of_not_mem hnd.1
    have hstep :
        (dr.map (lookup0 (p :: rest))).sum =
          (dr.map (lookup0 rest)).sum + p.2 := by
      refine sum_map_update dr hdr p.1 (hsub p (List.mem_cons_self p rest))
        (lookup0 (p :: rest)) (lookup0 rest) p.2 ?_ ?_
      · rw [lookup0, if_pos rfl, h0]
        ring
      · intro d hd hda
        rw [lookup0, if_neg fun he => hda he.symm]
    rw [hstep, ih hnd.2 fun q hq => hsub q (List.mem_cons_of_mem p hq),
      sumVals_cons]
    ring

/-! ### Claim C2 -/

/-- C2 (counterexample): a validated upload may carry two rows with the same
date; reindexing then raises instead of producing a daily series, so the
claim does not hold for every validated input. -/
theorem reindex_duplicate_dates_counterexample :
    asfreqD [(3, 1), (3, 2)] = .error reindexMsg ∧
      (generate envOK upDup []).1 = .error .reindexError := by decide

/-- C2 (amended): for every validated input with at least one row whose dates
are pairwise distinct, reindexing produces a daily series with exactly one
entry per calendar day between the minimum and maximum observed date
inclusive, keeping each observed value and filling absent days with zero, and
reindexing its own output leaves it unchanged. -/
theorem reindex_daily_series_idempotent (s : List (Nat × Int))
    (hne : s ≠ []) (hnd : (seriesDates s).Nodup) :
    ∃ t, asfreqD s = .ok t ∧
      (∀ d : Nat, d ∈ seriesDates t ↔
        listMin (seriesDates s) ≤ d ∧ d ≤ listMax (seriesDates s)) ∧
      (seriesDates t).Nodup ∧
      (∀ p ∈ s, p ∈ t) ∧
      (∀ d : Nat, listMin (seriesDates s) ≤ d → d ≤ listMax (seriesDates s) →
        d ∉ seriesDates s → (d, (0 : Int)) ∈ t) ∧
      asfreqD t = .ok t := by
  have hsne : seriesDates s ≠ [] := by
    intro h
    exact hne (List.map_eq_nil_iff.1 h)
  have hlohi : listMin (seriesDates s) ≤ listMax (seriesDates s) :=
    listMin_le_listMax hsne
  refine ⟨(dayRange (listMin (seriesDates s)) (listMax (seriesDates s))).map
    fun d => (d, lookup0 s d), asfreqD_eq_ok s hne hnd, ?_, ?_, ?_, ?_, ?_⟩
  · intro d
    rw [seriesDates_map_pair]
    exact mem_dayRange
  · rw [seriesDates_map_pair]
    exact dayRange_nodup _ _
  · intro p hp
    have hp1 : p.1 ∈ seriesDates s := List.mem_map_of_mem Prod.fst hp
    have hd : p.1 ∈ dayRange (listMin (seriesDates s)) (listMax (seriesDates s)) :=
      mem_dayRange.2 ⟨listMin_le hp1, le_listMax hp1⟩
    have hmem : (p.1, lookup0 s p.1) ∈
        (dayRange (listMin (seriesDates s)) (listMax (seriesDates s))).map
          (fun d => (d, lookup0 s d)) :=
      List.mem_map_of_mem (fun d => (d, lookup0 s d)) hd
    rwa [lookup0_mem_of_nodup hnd hp, Prod.mk.eta] at hmem
  · intro d h1 h2 hdm
    have hd : d ∈ dayRange (listMin (seriesDates s)) (listMax (seriesDates s)) :=
      mem_dayRange.2 ⟨h1, h2⟩
    have hmem : (d, lookup0 s d) ∈
        (dayRange (listMin (seriesDates s)) (listMax (seriesDates s))).map
          (fun d => (d, lookup0 s d)) :=
      List.mem_map_of_mem (fun d => (d, lookup0 s d)) hd
    rwa [lookup0_eq_zero_of_not_mem hdm] at hmem
  · have hlomem : listMin (seriesDates s) ∈
        dayRange (listMin (seriesDates s)) (listMax (seriesDates s)) :=
      mem_dayRange.2 ⟨Nat.le_refl _, hlohi⟩
    have htne :
        (dayRange (listMin (seriesDates s)) (listMax (seriesDates s))).map
          (fun d => (d, lookup0 s d)) ≠ [] :=
      List.ne_nil_of_mem (List.mem_map_of_mem _ hlomem)
    have htnd : (seriesDates
        ((dayRange (listMin (seriesDates s)) (listMax (seriesDates s))).map
          fun d => (d, lookup0 s d))).Nodup := by
      rw [seriesDates_map_pair]
      exact dayRange_nodup _ _
    rw [asfreqD_eq_ok _ htne htnd]
    have hdrne :
        dayRange (listMin (seriesDates s)) (listMax (seriesDates s)) ≠ [] :=
      fun h => by
        rw [h] at hlomem
        cases hlomem
    have hmin : listMin (seriesDates
        ((dayRange (listMin (seriesDates s)) (listMax (seriesDates s))).map
          fun d => (d, lookup0 s d))) = listMin (seriesDates s) := by
      rw [seriesDates_map_pair]
      exact Nat.le_antisymm (listMin_le hlomem)
        (mem_dayRange.1 (listMin_mem hdrne)).1
    have hmax : listMax (seriesDates
        ((dayRange (listMin (seriesDates s)) (listMax (seriesDates s))).map
          fun d => (d, lookup0 s d))) = listMax (seriesDates s) := by
      rw [seriesDates_map_pair]
      refine Nat.le_antisymm (mem_dayRange.1 (listMax_mem hdrne)).2
        (le_listMax (mem_dayRange.2 ⟨hlohi, Nat.le_refl _⟩))
    rw [hmin, hmax]
    congr 1
    refine List.map_congr_left fun d hd => ?_
    rw [lookup0_map_self (lookup0 s) hd]

/-- C2 (witness): the amended theorem applied to the concrete two-day series
[(5, 1), (3, 2)]. -/
theorem reindex_daily_series_idempotent_witness :
    ∃ t, asfreqD [(5, 1), (3, 2)] = .ok t ∧
      (∀ d : Nat, d ∈ seriesDates t ↔
        listMin (seriesDates [(5, 1), (3, 2)]) ≤ d ∧
          d ≤ listMax (seriesDates [(5, 1), (3, 2)])) ∧
      (seriesDates t).Nodup ∧
      (∀ p ∈ [((5 : Nat), (1 : Int)), (3, 2)], p ∈ t) ∧
      (∀ d : Nat, listMin (seriesDates [(5, 1), (3, 2)]) ≤ d →
        d ≤ listMax (seriesDates [(5, 1), (3, 2)]) →
        d ∉ seriesDates [(5, 1), (3, 2)] → (d, (0 : Int)) ∈ t) ∧
      asfreqD t = .ok t :=
  reindex_daily_series_idempotent [(5, 1), (3, 2)] (by decide) (by decide)

theorem sumVals_map_pair (dr : List Nat) (f : Nat → Int) :
    sumVals (dr.map fun d => (d, f d)) = (dr.map f).sum := by
  induction dr with
  | nil => rfl
  | cons x dr ih =>
    rw [List.map_cons, sumVals_cons, List.map_cons, List.sum_cons, ih]

theorem sumVals_toSeries (rows : List Row) :
    sumVals (toSeries rows) = (rows.map fun r => r.cantidad).sum := by
  induction rows with
  | nil => rfl
  | cons r rows ih =>
    rw [toSeries, List.map_cons, sumVals_cons, List.map_cons, List.sum_cons,
      ← toSeries, ih]

/-! ### Claim C3 -/

/-- C3: for every input accepted by generation (the dates are pairwise
distinct, otherwise reindexing raises), the category totals sum to the same
grand total as the full reindexed daily series: conservation of mass. -/
theorem category_totals_conservation (rows : List Row)
    (hnd : (seriesDates (toSeries rows)).Nodup) :
    ∃ t, asfreqD (toSeries rows) = .ok t ∧
      sumVals (groupTotals rows) = sumVals t := by
  by_cases hne : toSeries rows = []
  · have hrows : rows = [] := by
      cases rows with
      | nil => rfl
      | cons r rs => exact absurd hne (by simp [toSeries])
    subst hrows
    exact ⟨[], rfl, rfl⟩
  · refine ⟨_, asfreqD_eq_ok _ hne hnd, ?_⟩
    rw [sumVals_map_pair,
      sum_lookup0 (toSeries rows) _ (dayRange_nodup _ _) hnd
        (fun p hp => mem_dayRange.2
          ⟨listMin_le (show p.1 ∈ seriesDates (toSeries rows) from
              List.mem_map_of_mem Prod.fst hp),
            le_listMax (show p.1 ∈ seriesDates (toSeries rows) from
              List.mem_map_of_mem Prod.fst hp)⟩),
      groupTotals_sumVals, sumVals_toSeries]

/-- C3 (witness): conservation of mass on the concrete one-row input
(day 3, "fruta", 2 grams). -/
theorem category_totals_conservation_witness :
    ∃ t, asfreqD (toSeries [⟨3, "fruta", 2⟩]) = .ok t ∧
      sumVals (groupTotals [⟨3, "fruta", 2⟩]) = sumVals t :=
  category_totals_conservation [⟨3, "fruta", 2⟩] (by decide)

/-! ### Claim C4 -/

/-- C4: for every pair of fitted predictors and every last observed date,
each of the two forecast outputs has exactly 30 entries and its dates are
precisely the 30 consecutive calendar days starting the day after the last
observed date. -/
theorem forecast_thirty_daily_steps (f g : Nat → Int) (last : Nat) :
    (forecastSeries f last 30).length = 30 ∧
      (forecastSeries f last 30).map Prod.fst =
        dayRange (last + 1) (last + 30) ∧
      (forecastSeries g last 30).length = 30 ∧
      (forecastSeries g last 30).map Prod.fst =
        dayRange (last + 1) (last + 30) := by
  have hcount : last + 30 + 1 - (last + 1) = 30 := by omega
  have key : ∀ h : Nat → Int,
      (forecastSeries h last 30).map Prod.fst =
        dayRange (last + 1) (last + 30) := by
    intro h
    rw [forecastSeries, dayRange, hcount, List.map_map]
    exact List.map_congr_left fun i _ => rfl
  exact ⟨by simp [forecastSeries], key f, by simp [forecastSeries], key g⟩

/-! ### Claim C7 -/

/-- C7: the input rows [(2024-01-01, "fruit", 100), (2024-01-03, "fruit", 50)]
(days 19723 and 19725) yield the 3-day daily series [100, 0, 50] and the
category totals map {"fruit": 150}. -/
theorem worked_example_series_and_totals :
    groupTotals rowsExample = [("fruit", 150)] ∧
      asfreqD (toSeries rowsExample) =
        .ok [(19723, 100), (19724, 0), (19725, 50)] := by decide

/-! ### Lemmas about the filesystem and the pipeline steps -/

theorem readFS_write_self (fs : FS) (p : String) (c : FileContent) :
    readFS (write fs p c) p = some c := by
  rw [write, readFS, if_pos rfl]

theorem readFS_write_other (fs : FS) (p q : String) (c : FileContent)
    (h : p ≠ q) : readFS (write fs p c) q = readFS fs q := by
  rw [write, readFS, if_neg h]

theorem parseDates_eq_none {l : List RawRow}
    (h : ∃ r ∈ l, r.fecha = none) : parseDates l = none := by
  induction l with
  | nil =>
    obtain ⟨r, hr, _⟩ := h
    cases hr
  | cons r rs ih =>
    obtain ⟨q, hq, hqn⟩ := h
    rcases List.mem_cons.1 hq with rfl | hq2
    · rw [parseDates, hqn]
    · rw [parseDates]
      cases hf : r.fecha with
      | none => rfl
      | some d =>
        rw [ih ⟨q, hq2, hqn⟩]
        rfl

/-! ### Claim C1 -/

/-- C1 (counterexample): an upload lacking only the quantity column is
rejected with a message naming all three required columns; the missing set
is just the quantity column, so the message does not name the missing set. -/
theorem missing_columns_message_counterexample :
    generate envOK upMissingQty [] =
        (.error (.missingColumns requiredColumns), []) ∧
      missingSet ["Fecha", "Tipo de Alimento"] =
        ["Cantidad Consumida (gr)"] ∧
      requiredColumns ≠ ["Cantidad Consumida (gr)"] := by decide

/-- C1 (amended): for every upload that passes the extension check and
parses but misses some required column, generation fails with a client error
(status 400) whose message names the full required column set. -/
theorem missing_columns_client_error (env : Env) (fs : FS) (u : Upload)
    (t : RawTable) (hext : strEndsWith u.filename ".csv" = true)
    (hparse : u.parse = .ok t)
    (hmiss : hasRequiredColumns t.cols = false) :
    generate env u fs = (.error (.missingColumns requiredColumns), fs) ∧
      (ApiError.missingColumns requiredColumns).statusCode = 400 := by
  refine ⟨?_, rfl⟩
  simp [generate, hext, hparse, hmiss]

/-- C1 (witness): the amended theorem at the concrete upload lacking the
quantity column. -/
theorem missing_columns_client_error_witness :
    generate envOK upMissingQty [] =
        (.error (.missingColumns requiredColumns), []) ∧
      (ApiError.missingColumns requiredColumns).statusCode = 400 :=
  missing_columns_client_error envOK [] upMissingQty
    ⟨["Fecha", "Tipo de Alimento"], []⟩ (by decide) rfl (by decide)

/-! ### Claim C6 -/

/-- C6: for every upload whose filename does not end in ".csv", generation
fails with a client error (status 400) whatever the parse outcome of the
file content is — so before any parsing is attempted. -/
theorem bad_extension_rejected_before_parse (env : Env) (fs : FS)
    (name : String) (p : Except String RawTable)
    (hext : strEndsWith name ".csv" = false) :
    generate env ⟨name, p⟩ fs = (.error .badExtension, fs) ∧
      ApiError.badExtension.statusCode = 400 := by
  refine ⟨?_, rfl⟩
  simp [generate, hext]

/-- C6 (witness): a ".txt" upload is rejected even though its content would
not even parse. -/
theorem bad_extension_rejected_before_parse_witness :
    generate envOK ⟨"datos.txt", .error "boom"⟩ [] =
        (.error .badExtension, []) ∧
      ApiError.badExtension.statusCode = 400 :=
  bad_extension_rejected_before_parse envOK [] "datos.txt" (.error "boom")
    (by decide)

/-! ### Claim C8 -/

/-- C8: if any date cell is unparseable, the whole request fails before any
chart is rendered: the error propagates, the output directory is unchanged
and no result structure is returned. -/
theorem unparseable_date_fails_request (env : Env) (fs : FS) (u : Upload)
    (t : RawTable) (hext : strEndsWith u.filename ".csv" = true)
    (hparse : u.parse = .ok t)
    (hcols : hasRequiredColumns t.cols = true)
    (hbad : ∃ r ∈ t.rows, r.fecha = none) :
    generate env u fs = (.error .dateParseError, fs) := by
  have hpd : parseDates t.rows = none := parseDates_eq_none hbad
  simp [generate, hext, hparse, hcols, hpd]

/-- C8 (witness): the concrete upload whose second row has an unparseable
date is rejected wholesale. -/
theorem unparseable_date_fails_request_witness :
    generate envOK upBadDate [] = (.error .dateParseError, []) :=
  unparseable_date_fails_request envOK [] upBadDate
    ⟨requiredColumns, [⟨some 3, "a", 1⟩, ⟨none, "b", 2⟩]⟩
    (by decide) rfl (by decide) (by decide)

/-! ### Claim C5 -/

/-- C5: downloading a name whose resolved path is absent from the output
directory returns 404; after a successful generation (with no intervening
one) the three written names download back exactly the contents that the
generation wrote. -/
theorem download_roundtrip (fs0 : FS) (name : String) (env : Env)
    (u : Upload) (fs : FS) (res : GenResult) (fs2 : FS)
    (hmiss : readFS fs0 (joinPath GRAPH_PATH name) = none)
    (hgen : generate env u fs = (.ok res, fs2)) :
    download fs0 name = .error .notFound ∧
      ∃ cp cl cr : FileContent,
        fs2 = write (write (write fs piePath cp) linePath cl) predPath cr ∧
        download fs2 "grafica_pastel.png" = .ok cp ∧
        download fs2 "grafica_linea.png" = .ok cl ∧
        download fs2 "grafica_predicciones.png" = .ok cr := by
  constructor
  · rw [download, hmiss]
  · simp only [generate] at hgen
    split at hgen
    · split at hgen
      · simp at hgen
      · split at hgen
        · split at hgen
          · simp at hgen
          · split at hgen
            · simp at hgen
            · split at hgen
              · split at hgen
                · rw [Prod.mk.injEq] at hgen
                  obtain ⟨hres, hfs⟩ := hgen
                  refine ⟨_, _, _, hfs.symm, ?_, ?_, ?_⟩
                  · rw [← hfs, download,
                      show joinPath GRAPH_PATH "grafica_pastel.png" = piePath
                        from rfl,
                      readFS_write_other _ _ _ _ (by decide),
                      readFS_write_other _ _ _ _ (by decide),
                      readFS_write_self]
                  · rw [← hfs, download,
                      show joinPath GRAPH_PATH "grafica_linea.png" = linePath
                        from rfl,
                      readFS_write_other _ _ _ _ (by decide),
                      readFS_write_self]
                  · rw [← hfs, download,
                      show joinPath GRAPH_PATH "grafica_predicciones.png" =
                          predPath
                        from rfl,
                      readFS_write_self]
                · simp at hgen
              · simp at hgen
        · simp at hgen
    · simp at hgen

/-- C5 (witness): on an empty output directory, downloading an ungenerated
name is 404, and a concrete successful generation downloads back the three
contents it wrote. -/
theorem download_roundtrip_witness :
    download [] "nada.png" = .error .notFound ∧
      ∃ cp cl cr : FileContent,
        (generate envOK upOK []).2 =
          write (write (write [] piePath cp) linePath cl) predPath cr ∧
        download (generate envOK upOK []).2 "grafica_pastel.png" = .ok cp ∧
        download (generate envOK upOK []).2 "grafica_linea.png" = .ok cl ∧
        download (generate envOK upOK []).2 "grafica_predicciones.png" =
          .ok cr :=
  download_roundtrip [] "nada.png" envOK upOK []
    ⟨piePath, linePath, predPath⟩ (generate envOK upOK []).2 rfl rfl

/-! ### Claim C9 -/

/-- C9: if either forecasting fit fails after the pie and line charts were
rendered, the request returns an internal server error and no result
structure, while the pie and line files written earlier in the request are
still on disk and the prediction chart path is untouched. -/
theorem forecast_failure_discards_response_keeps_files (env : Env) (fs : FS)
    (u : Upload) (t : RawTable) (rows : List Row) (daily : List (Nat × Int))
    (hext : strEndsWith u.filename ".csv" = true)
    (hparse : u.parse = .ok t)
    (hcols : hasRequiredColumns t.cols = true)
    (hpd : parseDates t.rows = some rows)
    (hdaily : asfreqD (toSeries rows) = .ok daily)
    (hfail : env.sarimaOk = false ∨ env.holtOk = false) :
    ∃ e : ApiError,
      generate env u fs =
          (.error e,
            write (write fs piePath (.pie (groupTotals rows))) linePath
              (.line daily)) ∧
        e.statusCode = 500 ∧
        readFS (write (write fs piePath (.pie (groupTotals rows))) linePath
            (.line daily)) piePath = some (.pie (groupTotals rows)) ∧
        readFS (write (write fs piePath (.pie (groupTotals rows))) linePath
            (.line daily)) linePath = some (.line daily) ∧
        readFS (write (write fs piePath (.pie (groupTotals rows))) linePath
            (.line daily)) predPath = readFS fs predPath := by
  have hpie : readFS (write (write fs piePath (.pie (groupTotals rows)))
      linePath (.line daily)) piePath = some (.pie (groupTotals rows)) := by
    rw [readFS_write_other _ _ _ _ (by decide), readFS_write_self]
  have hline : readFS (write (write fs piePath (.pie (groupTotals rows)))
      linePath (.line daily)) linePath = some (.line daily) :=
    readFS_write_self _ _ _
  have hpred : readFS (write (write fs piePath (.pie (groupTotals rows)))
      linePath (.line daily)) predPath = readFS fs predPath := by
    rw [readFS_write_other _ _ _ _ (by decide),
      readFS_write_other _ _ _ _ (by decide)]
  cases hs : env.sarimaOk with
  | false =>
    refine ⟨.sarimaError, ?_, rfl, hpie, hline, hpred⟩
    simp [generate, write, hext, hparse, hcols, hpd, hdaily, hs]
  | true =>
    have hh : env.holtOk = false := by
      rcases hfail with h | h
      · rw [hs] at h
        cases h
      · exact h
    refine ⟨.holtError, ?_, rfl, hpie, hline, hpred⟩
    simp [generate, write, hext, hparse, hcols, hpd, hdaily, hs, hh]

/-- C9 (witness): with a SARIMAX fit that fails to converge, the concrete
one-row request errors while its pie and line files stay on disk. -/
theorem forecast_failure_keeps_files_witness :
    ∃ e : ApiError,
      generate envSarimaFails upOK [] =
          (.error e,
            write (write [] piePath (.pie (groupTotals [⟨3, "fruta", 2⟩])))
              linePath (.line [(3, 2)])) ∧
        e.statusCode = 500 ∧
        readFS (write (write [] piePath
            (.pie (groupTotals [⟨3, "fruta", 2⟩]))) linePath
            (.line [(3, 2)])) piePath =
          some (.pie (groupTotals [⟨3, "fruta", 2⟩])) ∧
        readFS (write (write [] piePath
            (.pie (groupTotals [⟨3, "fruta", 2⟩]))) linePath
            (.line [(3, 2)])) linePath = some (.line [(3, 2)]) ∧
        readFS (write (write [] piePath
            (.pie (groupTotals [⟨3, "fruta", 2⟩]))) linePath
            (.line [(3, 2)])) predPath = readFS [] predPath :=
  forecast_failure_discards_response_keeps_files envSarimaFails [] upOK
    tblOK [⟨3, "fruta", 2⟩] [(3, 2)] (by decide) rfl (by decide) rfl
    (by decide) (Or.inl rfl)

/-! ### Claim C10 -/

/-- C10 (counterexample): a validated upload whose distinct dates are merely
out of ascending order does not abort: reindexing runs over the observed
minimum-to-maximum range and generation succeeds. -/
theorem unsorted_dates_succeed_counterexample :
    (generate envOK upUnsorted []).1 = .ok ⟨piePath, linePath, predPath⟩ := by
  decide

/-- C10 (amended): an upload passing extension, parsing, required-field and
date validation but containing two rows with the same date does not fail
with a client error: it aborts at the daily reindexing step with an
unhandled internal failure surfacing as a server error (500). -/
theorem duplicate_dates_server_error (env : Env) (fs : FS) (u : Upload)
    (t : RawTable) (rows : List Row)
    (hext : strEndsWith u.filename ".csv" = true)
    (hparse : u.parse = .ok t)
    (hcols : hasRequiredColumns t.cols = true)
    (hpd : parseDates t.rows = some rows)
    (hdup : ¬ (seriesDates (toSeries rows)).Nodup) :
    generate env u fs =
        (.error .reindexError, write fs piePath (.pie (groupTotals rows))) ∧
      ApiError.reindexError.statusCode = 500 := by
  have hne : toSeries rows ≠ [] := by
    intro h
    rw [h] at hdup
    exact hdup List.nodup_nil
  have hre : asfreqD (toSeries rows) = .error reindexMsg := by
    rw [asfreqD, if_neg hne, if_neg hdup]
  refine ⟨?_, rfl⟩
  simp [generate, write, hext, hparse, hcols, hpd, hre]

/-- C10 (witness): the concrete validated upload with two rows on day 3
aborts with the reindexing server error. -/
theorem duplicate_dates_server_error_witness :
    generate envOK upDup [] =
        (.error .reindexError,
          write [] piePath (.pie (groupTotals [⟨3, "a", 1⟩, ⟨3, "b", 2⟩]))) ∧
      ApiError.reindexError.statusCode = 500 :=
  duplicate_dates_server_error envOK [] upDup
    ⟨requiredColumns, [⟨some 3, "a", 1⟩, ⟨some 3, "b", 2⟩]⟩
    [⟨3, "a", 1⟩, ⟨3, "b", 2⟩] (by decide) rfl (by decide) rfl (by decide)

end Grafica
